import Mathlib

/-!
A verification development for the `json-rpc-cache-proxy` repository
(`src/cache.py`, `src/config.py`, `src/main.py`).

The Python code is shallowly embedded: dictionaries become association
lists (Python dicts preserve insertion order and have unique keys),
`OrderedDict` becomes an ordered association list whose head is the
oldest entry, JSON values become the inductive `JsonVal`, timestamps
(`time.time()`) become integers, machine words inside MD5 become `Nat`
reduced `% 2^32`, and fallible code returns `Except`.  Each definition
is annotated with the source line(s) it embeds.
-/

/-- JSON values, as produced by `json.loads` / consumed by `json.dumps`.
Numbers are modelled as integers (the requests and responses exercised
here carry integral ids and opaque payloads; float formatting is not
relevant to any statement below).  Objects are ordered association
lists, mirroring Python dict insertion order; well-formed Python dicts
have unique keys. -/
inductive JsonVal where
  | null
  | boolean (b : Bool)
  | num (n : Int)
  | str (s : String)
  | arr (elems : List JsonVal)
  | obj (fields : List (String × JsonVal))

mutual
/-- Decidable equality for `JsonVal` (spelled out because `deriving`
does not handle the nested occurrence in `arr`/`obj`). -/
def JsonVal.decEq : (a b : JsonVal) → Decidable (a = b)
  | .null, .null => .isTrue rfl
  | .null, .boolean _ => .isFalse (fun h => by cases h)
  | .null, .num _ => .isFalse (fun h => by cases h)
  | .null, .str _ => .isFalse (fun h => by cases h)
  | .null, .arr _ => .isFalse (fun h => by cases h)
  | .null, .obj _ => .isFalse (fun h => by cases h)
  | .boolean _, .null => .isFalse (fun h => by cases h)
  | .boolean a, .boolean b =>
      if h : a = b then .isTrue (by rw [h]) else .isFalse (fun hh => by cases hh; exact h rfl)
  | .boolean _, .num _ => .isFalse (fun h => by cases h)
  | .boolean _, .str _ => .isFalse (fun h => by cases h)
  | .boolean _, .arr _ => .isFalse (fun h => by cases h)
  | .boolean _, .obj _ => .isFalse (fun h => by cases h)
  | .num _, .null => .isFalse (fun h => by cases h)
  | .num _, .boolean _ => .isFalse (fun h => by cases h)
  | .num a, .num b =>
      if h : a = b then .isTrue (by rw [h]) else .isFalse (fun hh => by cases hh; exact h rfl)
  | .num _, .str _ => .isFalse (fun h => by cases h)
  | .num _, .arr _ => .isFalse (fun h => by cases h)
  | .num _, .obj _ => .isFalse (fun h => by cases h)
  | .str _, .null => .isFalse (fun h => by cases h)
  | .str _, .boolean _ => .isFalse (fun h => by cases h)
  | .str _, .num _ => .isFalse (fun h => by cases h)
  | .str a, .str b =>
      if h : a = b then .isTrue (by rw [h]) else .isFalse (fun hh => by cases hh; exact h rfl)
  | .str _, .arr _ => .isFalse (fun h => by cases h)
  | .str _, .obj _ => .isFalse (fun h => by cases h)
  | .arr _, .null => .isFalse (fun h => by cases h)
  | .arr _, .boolean _ => .isFalse (fun h => by cases h)
  | .arr _, .num _ => .isFalse (fun h => by cases h)
  | .arr _, .str _ => .isFalse (fun h => by cases h)
  | .arr a, .arr b =>
      match JsonVal.decEqList a b with
      | .isTrue h => .isTrue (by rw [h])
      | .isFalse h => .isFalse (fun hh => by cases hh; exact h rfl)
  | .arr _, .obj _ => .isFalse (fun h => by cases h)
  | .obj _, .null => .isFalse (fun h => by cases h)
  | .obj _, .boolean _ => .isFalse (fun h => by cases h)
  | .obj _, .num _ => .isFalse (fun h => by cases h)
  | .obj _, .str _ => .isFalse (fun h => by cases h)
  | .obj _, .arr _ => .isFalse (fun h => by cases h)
  | .obj a, .obj b =>
      match JsonVal.decEqFields a b with
      | .isTrue h => .isTrue (by rw [h])
      | .isFalse h => .isFalse (fun hh => by cases hh; exact h rfl)

def JsonVal.decEqList : (a b : List JsonVal) → Decidable (a = b)
  | [], [] => .isTrue rfl
  | [], _ :: _ => .isFalse (fun h => by cases h)
  | _ :: _, [] => .isFalse (fun h => by cases h)
  | x :: xs, y :: ys =>
      match JsonVal.decEq x y, JsonVal.decEqList xs ys with
      | .isTrue h1, .isTrue h2 => .isTrue (by rw [h1, h2])
      | .isFalse h1, _ => .isFalse (fun h => by cases h; exact h1 rfl)
      | _, .isFalse h2 => .isFalse (fun h => by cases h; exact h2 rfl)

def JsonVal.decEqFields : (a b : List (String × JsonVal)) → Decidable (a = b)
  | [], [] => .isTrue rfl
  | [], _ :: _ => .isFalse (fun h => by cases h)
  | _ :: _, [] => .isFalse (fun h => by cases h)
  | (k1, v1) :: xs, (k2, v2) :: ys =>
      match String.decEq k1 k2, JsonVal.decEq v1 v2, JsonVal.decEqFields xs ys with
      | .isTrue h1, .isTrue h2, .isTrue h3 => .isTrue (by rw [h1, h2, h3])
      | .isFalse h1, _, _ => .isFalse (fun h => by cases h; exact h1 rfl)
      | _, .isFalse h2, _ => .isFalse (fun h => by cases h; exact h2 rfl)
      | _, _, .isFalse h3 => .isFalse (fun h => by cases h; exact h3 rfl)
end

instance : DecidableEq JsonVal := JsonVal.decEq

/-- A JSON-RPC request object (a Python dict), e.g.
`\x7b"method": ..., "params": ..., "id": ...\x7d`. -/
abbrev RpcDict := List (String × JsonVal)

/-- Association-list lookup, modelling a Python dict read `d[k]` /
`d.get(k)` (first binding wins; Python dicts have unique keys). -/
def lookupAssoc {κ α : Type} [DecidableEq κ] (k : κ) : List (κ × α) → Option α
  | [] => none
  | p :: t => if p.1 = k then some p.2 else lookupAssoc k t

/-- Association-list update, modelling a Python dict write `d[k] = v`:
an existing key keeps its position, a new key is appended at the end. -/
def setAssoc {κ α : Type} [DecidableEq κ] (k : κ) (v : α) : List (κ × α) → List (κ × α)
  | [] => [(k, v)]
  | p :: t => if p.1 = k then (k, v) :: t else p :: setAssoc k v t

/-- Remove every binding of key `k`, keeping the rest in order.  On a
unique-key dict this is exactly `d.pop(k, None)`. -/
def eraseKey {α : Type} (k : String) : List (String × α) → List (String × α)
  | [] => []
  | p :: t => if p.1 = k then eraseKey k t else p :: eraseKey k t

/-- Models `body_copy = body.copy(); body_copy.pop("id", None)`
(`src/main.py` lines 59-61 and 65-66): remove the top-level `id`
binding, keeping everything else in order. -/
def stripId (o : RpcDict) : RpcDict :=
  eraseKey "id" o

/-! ### `json.dumps(x, sort_keys=True)`

Modelled in two passes: `sortJson` recursively sorts every object's
fields by key (what `sort_keys=True` does), and `dumpsVal` serializes
with Python's default separators `", "` and `": "`. -/

/-- Insertion of a pair into a key-sorted list of pairs (ordered by
`String` order on the keys). -/
def insertByKey (p : String × JsonVal) : List (String × JsonVal) → List (String × JsonVal)
  | [] => [p]
  | q :: t => if p.1 ≤ q.1 then p :: q :: t else q :: insertByKey p t

/-- Insertion sort of object fields by key, modelling the key ordering
applied by `json.dumps(..., sort_keys=True)`. -/
def sortByKey : List (String × JsonVal) → List (String × JsonVal)
  | [] => []
  | p :: t => insertByKey p (sortByKey t)

mutual
/-- Recursively sort all object fields by key. -/
def sortJson : JsonVal → JsonVal
  | .null => .null
  | .boolean b => .boolean b
  | .num n => .num n
  | .str s => .str s
  | .arr l => .arr (sortJsonList l)
  | .obj fs => .obj (sortByKey (sortJsonFields fs))

def sortJsonList : List JsonVal → List JsonVal
  | [] => []
  | v :: t => sortJson v :: sortJsonList t

def sortJsonFields : List (String × JsonVal) → List (String × JsonVal)
  | [] => []
  | (k, v) :: t => (k, sortJson v) :: sortJsonFields t
end

/-- Hexadecimal digit (lower case), used by the JSON string escaper and
by the MD5 hex digest. -/
def hexDigit (n : Nat) : Char :=
  if n < 10 then Char.ofNat (48 + n) else Char.ofNat (87 + n)

/-- Four-digit hexadecimal rendering of a code point, as in JSON
`\uXXXX` escapes. -/
def hex4 (n : Nat) : String :=
  String.mk [hexDigit (n / 4096 % 16), hexDigit (n / 256 % 16),
             hexDigit (n / 16 % 16), hexDigit (n % 16)]

/-- JSON escaping of one character, following `json.dumps` defaults
(`ensure_ascii=True`): quote and backslash are escaped, the usual
control shorthands are used, other control and all non-ASCII
basic-plane characters become `\uXXXX`. -/
def escapeChar (c : Char) : String :=
  if c = '"' then "\\\""
  else if c = '\\' then "\\\\"
  else if c = '\n' then "\\n"
  else if c = '\t' then "\\t"
  else if c = '\r' then "\\r"
  else if c.toNat = 8 then "\\b"
  else if c.toNat = 12 then "\\f"
  else if c.toNat < 32 ∨ c.toNat > 126 then "\\u" ++ hex4 c.toNat
  else String.mk [c]

/-- JSON rendering of a string literal. -/
def dumpsString (s : String) : String :=
  "\"" ++ String.join (s.data.map escapeChar) ++ "\""

mutual
/-- Serializer matching `json.dumps` with default separators `", "`
and `": "` (object fields are assumed already key-sorted by
`sortJson`). -/
def dumpsVal : JsonVal → String
  | .null => "null"
  | .boolean true => "true"
  | .boolean false => "false"
  | .num n => toString n
  | .str s => dumpsString s
  | .arr l => "[" ++ dumpsElems l ++ "]"
  | .obj fs => "\x7b" ++ dumpsFields fs ++ "\x7d"

def dumpsElems : List JsonVal → String
  | [] => ""
  | [v] => dumpsVal v
  | v :: t => dumpsVal v ++ ", " ++ dumpsElems t

def dumpsFields : List (String × JsonVal) → String
  | [] => ""
  | [(k, v)] => dumpsString k ++ ": " ++ dumpsVal v
  | (k, v) :: t => dumpsString k ++ ": " ++ dumpsVal v ++ ", " ++ dumpsFields t
end

/-- Models `json.dumps(v, sort_keys=True)`. -/
def pyDumpsSorted (v : JsonVal) : String :=
  dumpsVal (sortJson v)

/-! ### MD5 (`hashlib.md5(...).hexdigest()`)

A direct executable model of MD5 over byte lists; 32-bit words are
`Nat` values reduced `% 2^32`. -/

/-- UTF-8 encoding of one character (`str.encode()`api). -/
def utf8Bytes (c : Char) : List Nat :=
  let n := c.toNat
  if n < 128 then [n]
  else if n < 2048 then [192 + n / 64, 128 + n % 64]
  else if n < 65536 then [224 + n / 4096, 128 + n / 64 % 64, 128 + n % 64]
  else [240 + n / 262144, 128 + n / 4096 % 64, 128 + n / 64 % 64, 128 + n % 64]

/-- Models `s.encode()`: UTF-8 bytes of a string. -/
def strBytes (s : String) : List Nat :=
  (s.data.map utf8Bytes).flatten

/-- Rotation of a 32-bit word to the left. -/
def leftrot (x n : Nat) : Nat :=
  ((x <<< n) % 4294967296) ||| (x >>> (32 - n))

/-- MD5 round constants `K[i] = floor(2^32 * abs(sin(i+1)))`. -/
def md5K : List Nat :=
  [0xd76aa478, 0xe8c7b756, 0x242070db, 0xc1bdceee,
   0xf57c0faf, 0x4787c62a, 0xa8304613, 0xfd469501,
   0x698098d8, 0x8b44f7af, 0xffff5bb1, 0x895cd7be,
   0x6b901122, 0xfd987193, 0xa679438e, 0x49b40821,
   0xf61e2562, 0xc040b340, 0x265e5a51, 0xe9b6c7aa,
   0xd62f105d, 0x02441453, 0xd8a1e681, 0xe7d3fbc8,
   0x21e1cde6, 0xc33707d6, 0xf4d50d87, 0x455a14ed,
   0xa9e3e905, 0xfcefa3f8, 0x676f02d9, 0x8d2a4c8a,
   0xfffa3942, 0x8771f681, 0x6d9d6122, 0xfde5380c,
   0xa4beea44, 0x4bdecfa9, 0xf6bb4b60, 0xbebfbc70,
   0x289b7ec6, 0xeaa127fa, 0xd4ef3085, 0x04881d05,
   0xd9d4d039, 0xe6db99e5, 0x1fa27cf8, 0xc4ac5665,
   0xf4292244, 0x432aff97, 0xab9423a7, 0xfc93a039,
   0x655b59c3, 0x8f0ccc92, 0xffeff47d, 0x85845dd1,
   0x6fa87e4f, 0xfe2ce6e0, 0xa3014314, 0x4e0811a1,
   0xf7537e82, 0xbd3af235, 0x2ad7d2bb, 0xeb86d391]

/-- MD5 per-round left-rotation amounts. -/
def md5S : List Nat :=
  [7, 12, 17, 22, 7, 12, 17, 22, 7, 12, 17, 22, 7, 12, 17, 22,
   5, 9, 14, 20, 5, 9, 14, 20, 5, 9, 14, 20, 5, 9, 14, 20,
   4, 11, 16, 23, 4, 11, 16, 23, 4, 11, 16, 23, 4, 11, 16, 23,
   6, 10, 15, 21, 6, 10, 15, 21, 6, 10, 15, 21, 6, 10, 15, 21]

/-- Little-endian byte rendering of a number on `count` bytes. -/
def leBytes (n count : Nat) : List Nat :=
  (List.range count).map (fun i => (n >>> (8 * i)) % 256)

/-- MD5 padding: append `0x80`, zero-fill to 56 mod 64, then the
64-bit little-endian bit length. -/
def md5pad (msg : List Nat) : List Nat :=
  let zeros := (120 - (msg.length + 1) % 64) % 64
  msg ++ [128] ++ List.replicate zeros 0 ++ leBytes (msg.length * 8 % 18446744073709551616) 8

/-- Group bytes four at a time into little-endian 32-bit words. -/
def bytesToWords : List Nat → List Nat
  | b0 :: b1 :: b2 :: b3 :: rest =>
      (b0 + b1 * 256 + b2 * 65536 + b3 * 16777216) :: bytesToWords rest
  | _ => []

/-- Split a byte list into 64-byte blocks (structural recursion on a
fuel bounded by the list length, so that it reduces in the kernel). -/
def chunks64Go : Nat → List Nat → List (List Nat)
  | 0, _ => []
  | _ + 1, [] => []
  | fuel + 1, l => l.take 64 :: chunks64Go fuel (l.drop 64)

/-- Split a byte list into 64-byte blocks. -/
def chunks64 (l : List Nat) : List (List Nat) :=
  chunks64Go l.length l

/-- One MD5 round (index `i` from 0 to 63) on state `(a, b, c, d)`
with message words `m`. -/
def md5step (m : List Nat) (st : Nat × Nat × Nat × Nat) (i : Nat) : Nat × Nat × Nat × Nat :=
  let (a, b, c, d) := st
  let (f, g) :=
    if i < 16 then ((b &&& c) ||| ((b ^^^ 4294967295) &&& d), i)
    else if i < 32 then ((d &&& b) ||| ((d ^^^ 4294967295) &&& c), (5 * i + 1) % 16)
    else if i < 48 then (b ^^^ c ^^^ d, (3 * i + 5) % 16)
    else (c ^^^ (b ||| (d ^^^ 4294967295)), (7 * i) % 16)
  let f := (f + a + md5K.getD i 0 + m.getD g 0) % 4294967296
  (d, (b + leftrot f (md5S.getD i 0)) % 4294967296, b, c)

/-- Process one 64-byte block, updating the MD5 state. -/
def md5block (st : Nat × Nat × Nat × Nat) (block : List Nat) : Nat × Nat × Nat × Nat :=
  let m := bytesToWords block
  let (a, b, c, d) := st
  let (a2, b2, c2, d2) := (List.range 64).foldl (md5step m) (a, b, c, d)
  ((a + a2) % 4294967296, (b + b2) % 4294967296, (c + c2) % 4294967296, (d + d2) % 4294967296)

/-- MD5 digest of a byte list: 16 bytes. -/
def md5bytes (msg : List Nat) : List Nat :=
  let (a, b, c, d) :=
    (chunks64 (md5pad msg)).foldl md5block (0x67452301, 0xefcdab89, 0x98badcfe, 0x10325476)
  leBytes a 4 ++ leBytes b 4 ++ leBytes c 4 ++ leBytes d 4

/-- Two lower-case hex digits of a byte. -/
def byteHex (b : Nat) : String :=
  String.mk [hexDigit (b / 16 % 16), hexDigit (b % 16)]

/-- Models `hashlib.md5(s.encode()).hexdigest()`. -/
def md5hex (s : String) : String :=
  String.join ((md5bytes (strBytes s)).map byteHex)

/-! ### Cache-key derivation (`src/main.py` lines 49-69) -/

/-- An inbound JSON-RPC payload: a single request object or a batch
(`isinstance(rpc_request, list)` dispatch in `src/main.py`).  Batch
elements are request dicts; non-dict payloads raise before reaching the
logic modelled here. -/
inductive RpcBody where
  | single (o : RpcDict)
  | batch (items : List RpcDict)
deriving DecidableEq

/-- Per-element canonical string: `json.dumps(item_copy, sort_keys=True)`
after `item_copy.pop("id", None)`. -/
def cleanedDump (o : RpcDict) : String :=
  pyDumpsSorted (.obj (stripId o))

/-- Code-point-wise `<=` on character lists: the lexicographic order
Python `sorted` uses on strings. -/
def charListLe : List Char → List Char → Bool
  | [], _ => true
  | _ :: _, [] => false
  | a :: as, b :: bs =>
      if a.toNat < b.toNat then true
      else if b.toNat < a.toNat then false
      else charListLe as bs

/-- Lexicographic `<=` on strings by code point. -/
def strLe (a b : String) : Bool :=
  charListLe a.data b.data

/-- Lexicographic string sort, modelling Python `sorted(...)` on
strings. -/
def sortStrings (l : List String) : List String :=
  List.insertionSort (fun a b => strLe a b = true) l

/-- Embeds `JSONRPCCacheProxy.generate_cache_key` (`src/main.py` lines 49-69):
for a batch, strip each element's `id`, dump with sorted keys, sort the
resulting strings, join with `":"`, prefix the chain; for a single
request, strip `id`, dump, prefix the chain.  Hash the content with
MD5 and return the hex digest. -/
def generate_cache_key (chain : String) (body : RpcBody) : String :=
  match body with
  | .batch items =>
      md5hex (chain ++ ":" ++ String.intercalate ":" (sortStrings (items.map cleanedDump)))
  | .single o =>
      md5hex (chain ++ ":" ++ cleanedDump o)

/-! ### `TTLCache` (`src/cache.py` lines 6-50)

`OrderedDict` is modelled as an ordered association list whose head is
the oldest entry (`popitem(last=False)` removes the head,
`move_to_end` moves a binding to the back). -/

/-- Cache lookup status strings of `src/cache.py`. -/
inductive CacheStatus where
  | HIT
  | MISS
  | EXPIRED
deriving DecidableEq

/-- One chain's TTL cache (`TTLCache.__init__`, `src/cache.py`
lines 12-21): entries are `key ↦ (value, expiration_time)` bindings in
insertion/move order, oldest first. -/
structure TTLCache where
  maxsize : Nat
  ttl : Int
  cache : List (String × JsonVal × Int)
deriving DecidableEq

/-- Models `OrderedDict.move_to_end(key)`: move the binding for `key` to the
most-recent (back) position, keeping everything else in order.  The
code only calls it on present keys (a missing key would raise). -/
def moveToEnd (k : String) (l : List (String × JsonVal × Int)) : List (String × JsonVal × Int) :=
  match lookupAssoc k l with
  | none => l
  | some ve => eraseKey k l ++ [(k, ve)]

/-- Embeds `TTLCache.get` (`src/cache.py` lines 23-36): `(None, "MISS")` when
the key is absent; `(value, "EXPIRED")` when present but
`time.time() > expiration_time`; otherwise `move_to_end(key)` and
`(value, "HIT")`.  The third component is the cache after the call. -/
def TTLCache.get (c : TTLCache) (now : Int) (key : String) :
    Option JsonVal × CacheStatus × TTLCache :=
  match lookupAssoc key c.cache with
  | none => (none, .MISS, c)
  | some (value, expiration_time) =>
      if now > expiration_time then (some value, .EXPIRED, c)
      else (some value, .HIT, { c with cache := moveToEnd key c.cache })

/-- Embeds `TTLCache.set` (`src/cache.py` lines 38-50): when
`len(self.cache) >= self.maxsize`, `popitem(last=False)` drops the
oldest binding (with `maxsize ≥ 1` the store is then non-empty, so the
`popitem` never raises); then the dict write plus `move_to_end` place
`key ↦ (value, time.time() + ttl)` at the most-recent position. -/
def TTLCache.set (c : TTLCache) (now : Int) (key : String) (value : JsonVal) : TTLCache :=
  let cache1 := if c.maxsize ≤ c.cache.length then c.cache.tail else c.cache
  let expiration_time := now + c.ttl
  { c with cache := moveToEnd key (setAssoc key (value, expiration_time) cache1) }

/-- The pure lookup status of a key: what `TTLCache.get` reports,
without the `move_to_end` side effect. -/
def TTLCache.lookupStatus (c : TTLCache) (now : Int) (key : String) : CacheStatus :=
  match lookupAssoc key c.cache with
  | none => .MISS
  | some (_, expiration_time) => if now > expiration_time then .EXPIRED else .HIT

/-- Embeds `ChainSpecificTTLCache` (`src/cache.py` lines 53-77): one
`TTLCache` per chain, all sharing `maxsize` (default 1000). -/
structure ChainSpecificTTLCache where
  caches : List (String × TTLCache)
  maxsize : Nat
deriving DecidableEq

/-- Embeds `ChainSpecificTTLCache.get_cache` (`src/cache.py` lines 66-77):
return the existing cache for `chain`, or create an empty one with the
given `ttl` and the shared `maxsize` (later `ttl` arguments for the
same chain are ignored).  Returns the cache and the updated registry. -/
def ChainSpecificTTLCache.get_cache (r : ChainSpecificTTLCache) (chain : String) (ttl : Int) :
    TTLCache × ChainSpecificTTLCache :=
  match lookupAssoc chain r.caches with
  | some c => (c, r)
  | none =>
      let c : TTLCache := ⟨r.maxsize, ttl, []⟩
      (c, { r with caches := setAssoc chain c r.caches })

/-! ### The request orchestrator (`src/main.py` lines 71-159)

`handle_http_request` is embedded as a pure state-transition function.
`time.time()` is modelled by a single instant `now` for the request;
the upstream `POST` is modelled by an `UpstreamResult` argument giving
the outcome of the (at most one) upstream call the request makes. -/

/-- Configuration consumed by the handler (`src/config.py`):
`config.RPC_URL` and `config.CACHE_TTL`, keyed by chain. -/
structure Config where
  RPC_URL : List (String × String)
  CACHE_TTL : List (String × Int)
deriving DecidableEq

/-- Outcome of the upstream `session.post` + `json.loads` interaction
in `fetch_from_rpc` (`src/main.py` lines 98-108): a transport error
(`aiohttp.ClientError`), a response body that fails to parse as JSON,
or a parsed JSON value. -/
inductive UpstreamResult where
  | netError
  | malformed
  | jsonResponse (v : JsonVal)
deriving DecidableEq

/-- How a request can fail: a raised `fastapi.HTTPException` with a
status code, or an uncaught Python exception (`KeyError`,
`json.JSONDecodeError`, `TypeError`, ...) that escapes the handler and
surfaces as the framework's internal-server-error response. -/
inductive ProxyError where
  | httpException (status : Nat)
  | unhandled
deriving DecidableEq

/-- Proxy-level mutable state (`JSONRPCCacheProxy.__init__`,
`src/main.py` lines 43-47): the chain cache registry, the
`deque(maxlen=1000)` of recent outcome labels (head = oldest), and the
time of the last ratio log line. -/
structure ProxyState where
  cache : ChainSpecificTTLCache
  cache_statuses : List CacheStatus
  last_ratio_log : Int
deriving DecidableEq

/-- Models `deque(maxlen=1000).append`: drop the oldest element when full. -/
def pushStatus (l : List CacheStatus) (s : CacheStatus) : List CacheStatus :=
  if 1000 ≤ l.length then l.tail ++ [s] else l ++ [s]

/-- Embeds `process_single_request` (`src/main.py` lines 88-96): derive the
element's key, probe the cache; on `HIT` return a copy of the cached
value with the caller's `id` written in (`None` when absent) and
nothing to forward; otherwise return the status, key, and the original
element to forward.  A `HIT` on a cached value that is not a JSON
object raises (`response["id"] = ...` on a non-dict), modelled as an
unhandled error.  The second component is the cache after the probe. -/
def process_single_request (chain : String) (now : Int) (c : TTLCache) (rpc_request : RpcDict) :
    Except ProxyError (Option RpcDict × CacheStatus × String × Option RpcDict) × TTLCache :=
  let cache_key := generate_cache_key chain (.single rpc_request)
  match c.get now cache_key with
  | (cached_response, cache_status, c2) =>
    match cache_status with
    | .HIT =>
        match cached_response with
        | some (.obj fields) =>
            (.ok (some (setAssoc "id" ((lookupAssoc "id" rpc_request).getD .null) fields),
                  .HIT, cache_key, none), c2)
        | _ => (.error .unhandled, c2)
    | s => (.ok (none, s, cache_key, some rpc_request), c2)

/-- Accumulator of the batch loop (`src/main.py` line 111):
`batch_response, overall_cache_status, batch_request, cache_key_map`. -/
structure BatchAcc where
  c : TTLCache
  batch_response : List JsonVal
  overall : CacheStatus
  batch_request : List RpcDict
  cache_key_map : List (JsonVal × String)

/-- The per-element update of `overall_cache_status`
(`src/main.py` lines 120-121): a non-`HIT` element overwrites the
aggregate with its own status. -/
def statusStep (overall s : CacheStatus) : CacheStatus :=
  if s ≠ .HIT then (if s = .MISS then CacheStatus.MISS else CacheStatus.EXPIRED) else overall

/-- The `if sub_request_to_send:` block of the batch loop
(`src/main.py` lines 115-117): a non-empty element to forward records
its pre-computed key in `cache_key_map` under its own `id` (the read
`sub_request_to_send["id"]` raises `KeyError` when the element has no
`id`) and joins the outgoing batch; `None` or an empty — falsy — dict
is skipped. -/
def forwardStep (sub_cache_key : String) (sub_request_to_send : Option RpcDict)
    (batch_request : List RpcDict) (cache_key_map : List (JsonVal × String)) :
    Except ProxyError (List RpcDict × List (JsonVal × String)) :=
  match sub_request_to_send with
  | some r =>
      if r = [] then .ok (batch_request, cache_key_map)
      else
        match lookupAssoc "id" r with
        | none => .error .unhandled
        | some idv => .ok (batch_request ++ [r], setAssoc idv sub_cache_key cache_key_map)
  | none => .ok (batch_request, cache_key_map)

/-- The per-element batch loop (`src/main.py` lines 113-121).  Python
truthiness is modelled: an empty dict `sub_request_to_send`/`sub_response`
is falsy and skipped; `sub_request_to_send["id"]` raises `KeyError`
when the element has no `id`.  Any raise aborts the loop, keeping the
cache mutations (`move_to_end`) already made. -/
def batchLoop (chain : String) (now : Int) :
    BatchAcc → List RpcDict → Except (ProxyError × TTLCache) BatchAcc
  | acc, [] => .ok acc
  | acc, sub_request :: rest =>
    match process_single_request chain now acc.c sub_request with
    | (.error e, c2) => .error (e, c2)
    | (.ok (sub_response, sub_cache_status, sub_cache_key, sub_request_to_send), c2) =>
      match forwardStep sub_cache_key sub_request_to_send acc.batch_request acc.cache_key_map with
      | .error e => .error (e, c2)
      | .ok (batch_request, cache_key_map) =>
        let batch_response :=
          match sub_response with
          | some resp => if resp = [] then acc.batch_response else acc.batch_response ++ [JsonVal.obj resp]
          | none => acc.batch_response
        batchLoop chain now
          ⟨c2, batch_response, statusStep acc.overall sub_cache_status,
           batch_request, cache_key_map⟩ rest

/-- The store loop over the upstream batch response (`src/main.py`
lines 124-127): for each response item, look up its pre-computed key by
the item's own `id` and cache it.  A non-dict item, a missing `id`, or
an `id` absent from `cache_key_map` raises (`TypeError`/`KeyError`). -/
def storeLoop (now : Int) (cache_key_map : List (JsonVal × String)) :
    TTLCache → List JsonVal → List JsonVal → Except (ProxyError × TTLCache) (TTLCache × List JsonVal)
  | c, batch_response, [] => .ok (c, batch_response)
  | c, batch_response, sub_response :: rest =>
    match sub_response with
    | .obj fields =>
        match lookupAssoc "id" fields with
        | none => .error (.unhandled, c)
        | some idv =>
            match lookupAssoc idv cache_key_map with
            | none => .error (.unhandled, c)
            | some sub_cache_key =>
                storeLoop now cache_key_map (c.set now sub_cache_key (.obj fields))
                  (batch_response ++ [JsonVal.obj fields]) rest
    | _ => .error (.unhandled, c)

/-- Embeds `fetch_from_rpc` (`src/main.py` lines 98-108): a transport error
(`aiohttp.ClientError`) is caught and re-raised as
`HTTPException(502)`; a body that `json.loads` cannot parse raises
`json.JSONDecodeError`, which the `except aiohttp.ClientError` clause
does not catch, so it escapes unhandled. -/
def fetch_from_rpc (upstream : UpstreamResult) : Except ProxyError JsonVal :=
  match upstream with
  | .netError => .error (.httpException 502)
  | .malformed => .error .unhandled
  | .jsonResponse v => .ok v

/-- Iteration of `for sub_response in rpc_response` (`src/main.py`
lines 124-127) over an arbitrary JSON value: a JSON array iterates its
items; iterating an empty dict or empty string performs zero
iterations; any other value either is not iterable or yields non-dict
items whose subscripting raises — unhandled. -/
def iterateUpstream (now : Int) (cache_key_map : List (JsonVal × String)) (c : TTLCache)
    (batch_response : List JsonVal) : JsonVal → Except (ProxyError × TTLCache) (TTLCache × List JsonVal)
  | .arr items => storeLoop now cache_key_map c batch_response items
  | .obj [] => .ok (c, batch_response)
  | .str "" => .ok (c, batch_response)
  | _ => .error (.unhandled, c)

/-- The body of `handle_http_request` after the chain checks
(`src/main.py` lines 88-139), from the chain's cache to the
`(final_response, final_cache_status, final_cache_key)` triple.  Also
returns the chain cache after the call and the number of upstream
fetches attempted (0 or 1). -/
def processBody (chain : String) (now : Int) (c : TTLCache) (body : RpcBody)
    (upstream : UpstreamResult) :
    Except ProxyError (JsonVal × CacheStatus × String) × TTLCache × Nat :=
  match body with
  | .batch rpc_request =>
      match batchLoop chain now ⟨c, [], .HIT, [], []⟩ rpc_request with
      | .error (e, c2) => (.error e, c2, 0)
      | .ok acc =>
        if acc.batch_request ≠ [] then
          match fetch_from_rpc upstream with
          | .error e => (.error e, acc.c, 1)
          | .ok rpc_response =>
            match iterateUpstream now acc.cache_key_map acc.c acc.batch_response rpc_response with
            | .error (e, c2) => (.error e, c2, 1)
            | .ok (c2, batch_response) =>
                (.ok (.arr batch_response, acc.overall,
                      generate_cache_key chain (.batch rpc_request)), c2, 1)
        else
          (.ok (.arr acc.batch_response, acc.overall,
                generate_cache_key chain (.batch rpc_request)), acc.c, 0)
  | .single rpc_request =>
      match process_single_request chain now c rpc_request with
      | (.error e, c2) => (.error e, c2, 0)
      | (.ok (single_response, single_cache_status, single_cache_key, single_request), c2) =>
        match single_request with
        | none =>
            (.ok ((single_response.map JsonVal.obj).getD .null, single_cache_status,
                  single_cache_key), c2, 0)
        | some r =>
            if r = [] then
              -- an empty dict is falsy: no fetch, `single_response` stays `None`
              (.ok (.null, single_cache_status, single_cache_key), c2, 0)
            else
              match fetch_from_rpc upstream with
              | .error e => (.error e, c2, 1)
              | .ok v =>
                  (.ok (v, single_cache_status, single_cache_key),
                   c2.set now single_cache_key v, 1)

/-- The full result of one modelled HTTP request. -/
structure HandleResult where
  outcome : Except ProxyError (JsonVal × CacheStatus × String)
  state : ProxyState
  upstreamCalls : Nat
  emitted : Bool

/-- Embeds `JSONRPCCacheProxy.handle_http_request` (`src/main.py` lines
71-159) as a state transition.  The chain check (lines 82-84) raises
`HTTPException(404)` before any cache or upstream interaction; the
`config.CACHE_TTL[chain]` read raises `KeyError` for a chain with an
RPC URL but no TTL.  On success the outcome label is appended to the
rolling window and `_log_cache_ratio` (lines 161-181) emits a summary
when at least 10 seconds have elapsed since the last one (the window
is non-empty at that point, having just been appended to); a raised
exception propagates before either happens, keeping the cache
mutations already made. -/
def handle_http_request (cfg : Config) (st : ProxyState) (now : Int) (chain : String)
    (body : RpcBody) (upstream : UpstreamResult) : HandleResult :=
  if (lookupAssoc chain cfg.RPC_URL).isNone then
    { outcome := .error (.httpException 404), state := st, upstreamCalls := 0, emitted := false }
  else
    match lookupAssoc chain cfg.CACHE_TTL with
    | none => { outcome := .error .unhandled, state := st, upstreamCalls := 0, emitted := false }
    | some ttl =>
      let (chain_specific_cache, reg1) := st.cache.get_cache chain ttl
      match processBody chain now chain_specific_cache body upstream with
      | (.error e, c2, calls) =>
          { outcome := .error e
            state := { st with cache := { reg1 with caches := setAssoc chain c2 reg1.caches } }
            upstreamCalls := calls
            emitted := false }
      | (.ok (final_response, final_cache_status, final_cache_key), c2, calls) =>
          { outcome := .ok (final_response, final_cache_status, final_cache_key)
            state :=
              { cache := { reg1 with caches := setAssoc chain c2 reg1.caches }
                cache_statuses := pushStatus st.cache_statuses final_cache_status
                last_ratio_log := if 10 ≤ now - st.last_ratio_log then now else st.last_ratio_log }
            upstreamCalls := calls
            emitted := decide (10 ≤ now - st.last_ratio_log) }

/-! ### Auxiliary definitions used by the statements below -/

/-- Decidable equality of `Except` results (component-wise). -/
instance {ε α : Type} [DecidableEq ε] [DecidableEq α] : DecidableEq (Except ε α) := fun a b =>
  match a, b with
  | .error e1, .error e2 =>
      if h : e1 = e2 then .isTrue (by rw [h]) else .isFalse (fun hh => by cases hh; exact h rfl)
  | .error _, .ok _ => .isFalse (fun h => by cases h)
  | .ok _, .error _ => .isFalse (fun h => by cases h)
  | .ok v1, .ok v2 =>
      if h : v1 = v2 then .isTrue (by rw [h]) else .isFalse (fun hh => by cases hh; exact h rfl)

/-- The outcome label of a completed request, `none` for a failed one. -/
def outcomeStatus (r : HandleResult) : Option CacheStatus :=
  match r.outcome with
  | .ok (_, s, _) => some s
  | .error _ => none

/-- Two caches holding exactly the same `key ↦ (value, expiration)`
bindings (possibly in different order). -/
def SameEntries (c1 c2 : TTLCache) : Prop :=
  ∀ k, lookupAssoc k c1.cache = lookupAssoc k c2.cache

/-- The last non-`HIT` status of a list, if any. -/
def lastNonHit : List CacheStatus → Option CacheStatus
  | [] => none
  | s :: t =>
      match lastNonHit t with
      | some x => some x
      | none => if s = .HIT then none else some s

/-- Aggregate-label characterization: `HIT` when every element hit,
otherwise the status of the last non-`HIT` element. -/
def aggSpec (l : List CacheStatus) : CacheStatus :=
  (lastNonHit l).getD .HIT

/-- The `(value, expiration)` binding stored for key `k` in the cache
of chain `ch`, seen from the proxy state (`none` when the chain has no cache or
the key is absent). -/
def entryAt (st : ProxyState) (ch k : String) : Option (JsonVal × Int) :=
  (lookupAssoc ch st.cache.caches).bind fun c => lookupAssoc k c.cache

/-- A cache operation: the `TTLCache` public interface. -/
inductive CacheOp where
  | get (now : Int) (key : String)
  | set (now : Int) (key : String) (value : JsonVal)

/-- Run one cache operation, keeping the resulting cache. -/
def TTLCache.execOp (c : TTLCache) : CacheOp → TTLCache
  | .get now key => (c.get now key).2.2
  | .set now key value => c.set now key value

/-- Run a sequence of cache operations. -/
def TTLCache.execOps (c : TTLCache) (ops : List CacheOp) : TTLCache :=
  ops.foldl TTLCache.execOp c

/-- The cache carried by a batch-loop result (the mutated cache on an
abort, the accumulator's cache on completion). -/
def loopCache : Except (ProxyError × TTLCache) BatchAcc → TTLCache
  | .error (_, c) => c
  | .ok acc => acc.c

/-! ### Concrete inputs used by counterexamples and witnesses -/

/-- A batch element whose key is absent from `exCache` (a `MISS`). -/
def exElem1 : RpcDict := [("id", .num 1), ("method", .str "m1")]

/-- A batch element whose key is present but expired in `exCache`. -/
def exElem2 : RpcDict := [("id", .num 2), ("method", .str "m2")]

/-- A chain cache holding one expired entry: the key of `exElem2`,
expired at any `now > 0`. -/
def exCache : TTLCache :=
  ⟨1000, 30, [(generate_cache_key "eth" (.single exElem2),
               .obj [("id", .num 99), ("result", .str "r2")], 0)]⟩

/-- Proxy state with the chain `"eth"` cache `exCache`, an empty
rolling window, and a last ratio log at time 0. -/
def exState : ProxyState := ⟨⟨[("eth", exCache)], 1000⟩, [], 0⟩

/-- Configuration with the single chain `"eth"` (RPC URL and TTL). -/
def exConfig : Config := ⟨[("eth", "http://node")], [("eth", 30)]⟩

/-- An upstream batch response correlating with `exElem1`/`exElem2`. -/
def exUpstream : UpstreamResult :=
  .jsonResponse (.arr [.obj [("id", .num 1), ("result", .str "f1")],
                       .obj [("id", .num 2), ("result", .str "f2")]])

/-! ### Association-list lemmas -/

theorem lookupAssoc_append {κ α : Type} [DecidableEq κ] (k : κ) (l1 l2 : List (κ × α)) :
    lookupAssoc k (l1 ++ l2) =
      (match lookupAssoc k l1 with
       | some v => some v
       | none => lookupAssoc k l2) := by
  induction l1 with
  | nil => rfl
  | cons p t ih =>
      by_cases h : p.1 = k <;> simp [lookupAssoc, h, ih]

theorem lookupAssoc_eraseKey_ne {α : Type} {k k' : String} (h : k' ≠ k)
    (l : List (String × α)) :
    lookupAssoc k' (eraseKey k l) = lookupAssoc k' l := by
  induction l with
  | nil => rfl
  | cons p t ih =>
      by_cases hk : p.1 = k
      · simp [eraseKey, lookupAssoc, hk, Ne.symm h, ih]
      · by_cases hk2 : p.1 = k' <;> simp [eraseKey, lookupAssoc, hk, hk2, h, ih]

theorem lookupAssoc_eraseKey_self {α : Type} (k : String) (l : List (String × α)) :
    lookupAssoc k (eraseKey k l) = none := by
  induction l with
  | nil => rfl
  | cons p t ih =>
      by_cases hk : p.1 = k <;> simp [eraseKey, lookupAssoc, hk, ih]

theorem lookupAssoc_setAssoc_self {κ α : Type} [DecidableEq κ] (k : κ) (v : α)
    (l : List (κ × α)) : lookupAssoc k (setAssoc k v l) = some v := by
  induction l with
  | nil => simp [setAssoc, lookupAssoc]
  | cons p t ih =>
      by_cases h : p.1 = k <;> simp [setAssoc, lookupAssoc, h, ih]

theorem lookupAssoc_setAssoc_ne {κ α : Type} [DecidableEq κ] {k k' : κ} (h : k' ≠ k)
    (v : α) (l : List (κ × α)) : lookupAssoc k' (setAssoc k v l) = lookupAssoc k' l := by
  induction l with
  | nil => simp [setAssoc, lookupAssoc, Ne.symm h]
  | cons p t ih =>
      by_cases hk : p.1 = k
      · simp [setAssoc, lookupAssoc, hk, Ne.symm h]
      · by_cases hk2 : p.1 = k' <;> simp [setAssoc, lookupAssoc, hk, hk2, h, ih]

theorem length_setAssoc_le {κ α : Type} [DecidableEq κ] (k : κ) (v : α)
    (l : List (κ × α)) : (setAssoc k v l).length ≤ l.length + 1 := by
  induction l with
  | nil => simp [setAssoc]
  | cons p t ih =>
      by_cases h : p.1 = k <;> simp [setAssoc, h] <;> omega

theorem length_eraseKey_le {α : Type} (k : String) (l : List (String × α)) :
    (eraseKey k l).length ≤ l.length := by
  induction l with
  | nil => exact Nat.le_refl _
  | cons p t ih =>
      by_cases h : p.1 = k <;> simp [eraseKey, h] <;> omega

theorem length_eraseKey_lt_of_lookup {α : Type} {k : String} {v : α}
    {l : List (String × α)} (h : lookupAssoc k l = some v) :
    (eraseKey k l).length + 1 ≤ l.length := by
  induction l with
  | nil => simp [lookupAssoc] at h
  | cons p t ih =>
      by_cases hk : p.1 = k
      · have := length_eraseKey_le k t
        simp [eraseKey, hk]
        omega
      · simp [lookupAssoc, hk] at h
        have := ih h
        simp [eraseKey, hk]
        omega

theorem eraseKey_setAssoc {α : Type} (k : String) (v : α) (l : List (String × α)) :
    eraseKey k (setAssoc k v l) = eraseKey k l := by
  induction l with
  | nil => simp [setAssoc, eraseKey]
  | cons p t ih =>
      by_cases h : p.1 = k <;> simp [setAssoc, eraseKey, h, ih]

theorem lookupAssoc_moveToEnd (k k' : String) (l : List (String × JsonVal × Int)) :
    lookupAssoc k' (moveToEnd k l) = lookupAssoc k' l := by
  unfold moveToEnd
  cases h : lookupAssoc k l with
  | none => rfl
  | some ve =>
      rw [lookupAssoc_append]
      by_cases hk : k' = k
      · subst hk
        rw [lookupAssoc_eraseKey_self]
        simp [lookupAssoc, h]
      · rw [lookupAssoc_eraseKey_ne hk]
        cases h2 : lookupAssoc k' l with
        | none => simp [lookupAssoc, Ne.symm hk]
        | some w => simp

theorem length_moveToEnd_le (k : String) (l : List (String × JsonVal × Int)) :
    (moveToEnd k l).length ≤ l.length := by
  unfold moveToEnd
  cases h : lookupAssoc k l with
  | none => exact Nat.le_refl _
  | some ve =>
      have := length_eraseKey_lt_of_lookup h
      simp
      omega

/-! ### `TTLCache` lemmas -/

theorem TTLCache.get_status (c : TTLCache) (now : Int) (k : String) :
    (c.get now k).2.1 = c.lookupStatus now k := by
  unfold TTLCache.get TTLCache.lookupStatus
  cases h : lookupAssoc k c.cache with
  | none => rfl
  | some ve =>
      rcases ve with ⟨v, e⟩
      by_cases he : now > e <;> simp [he]

theorem TTLCache.get_entries (c : TTLCache) (now : Int) (k k' : String) :
    lookupAssoc k' ((c.get now k).2.2).cache = lookupAssoc k' c.cache := by
  unfold TTLCache.get
  cases h : lookupAssoc k c.cache with
  | none => rfl
  | some ve =>
      rcases ve with ⟨v, e⟩
      by_cases he : now > e
      · simp [he]
      · simp [he, lookupAssoc_moveToEnd]

theorem TTLCache.get_maxsize (c : TTLCache) (now : Int) (k : String) :
    ((c.get now k).2.2).maxsize = c.maxsize := by
  unfold TTLCache.get
  cases h : lookupAssoc k c.cache with
  | none => rfl
  | some ve =>
      rcases ve with ⟨v, e⟩
      by_cases he : now > e <;> simp [he]

theorem TTLCache.get_length_le (c : TTLCache) (now : Int) (k : String) :
    ((c.get now k).2.2).cache.length ≤ c.cache.length := by
  unfold TTLCache.get
  cases h : lookupAssoc k c.cache with
  | none => exact Nat.le_refl _
  | some ve =>
      rcases ve with ⟨v, e⟩
      by_cases he : now > e
      · simp [he]
      · simp [he, length_moveToEnd_le]

/-- The net effect of `TTLCache.set`: drop the oldest binding when at
capacity, remove any binding of `key`, and append the fresh binding at
the most-recent position. -/
theorem TTLCache.set_eq (c : TTLCache) (now : Int) (k : String) (v : JsonVal) :
    (c.set now k v).cache =
      eraseKey k (if c.maxsize ≤ c.cache.length then c.cache.tail else c.cache)
        ++ [(k, v, now + c.ttl)] := by
  unfold TTLCache.set moveToEnd
  simp only [lookupAssoc_setAssoc_self, eraseKey_setAssoc]

theorem TTLCache.set_maxsize (c : TTLCache) (now : Int) (k : String) (v : JsonVal) :
    (c.set now k v).maxsize = c.maxsize := rfl

theorem TTLCache.set_length (c : TTLCache) (now : Int) (k : String) (v : JsonVal)
    (h1 : 1 ≤ c.maxsize) (h2 : c.cache.length ≤ c.maxsize) :
    (c.set now k v).cache.length ≤ c.maxsize := by
  rw [TTLCache.set_eq]
  by_cases hc : c.maxsize ≤ c.cache.length
  · have hlen : c.cache.length = c.maxsize := Nat.le_antisymm h2 hc
    have htail : c.cache.tail.length = c.maxsize - 1 := by
      rw [List.length_tail, hlen]
    have := length_eraseKey_le k c.cache.tail
    simp [hc]
    omega
  · have := length_eraseKey_le k c.cache
    simp [hc]
    omega

theorem TTLCache.execOp_inv (c : TTLCache) (op : CacheOp)
    (h1 : 1 ≤ c.maxsize) (h2 : c.cache.length ≤ c.maxsize) :
    (c.execOp op).maxsize = c.maxsize ∧ (c.execOp op).cache.length ≤ c.maxsize := by
  cases op with
  | get now k =>
      exact ⟨TTLCache.get_maxsize c now k,
             Nat.le_trans (TTLCache.get_length_le c now k) h2⟩
  | set now k v =>
      exact ⟨TTLCache.set_maxsize c now k v, TTLCache.set_length c now k v h1 h2⟩

theorem TTLCache.execOps_inv (ops : List CacheOp) (c : TTLCache)
    (h1 : 1 ≤ c.maxsize) (h2 : c.cache.length ≤ c.maxsize) :
    (c.execOps ops).maxsize = c.maxsize ∧ (c.execOps ops).cache.length ≤ c.maxsize := by
  induction ops generalizing c with
  | nil => exact ⟨rfl, h2⟩
  | cons op rest ih =>
      have hstep := TTLCache.execOp_inv c op h1 h2
      have := ih (c.execOp op) (hstep.1 ▸ h1) (hstep.1 ▸ hstep.2)
      exact ⟨this.1.trans hstep.1, hstep.1 ▸ this.2⟩

/-! ### Batch-loop lemmas -/

theorem lookupStatus_congr {c1 c2 : TTLCache}
    (h : ∀ k, lookupAssoc k c1.cache = lookupAssoc k c2.cache) (now : Int) (key : String) :
    c1.lookupStatus now key = c2.lookupStatus now key := by
  unfold TTLCache.lookupStatus
  rw [h key]

theorem psr_cache_eq (chain : String) (now : Int) (c : TTLCache) (r : RpcDict) :
    (process_single_request chain now c r).2
      = (c.get now (generate_cache_key chain (.single r))).2.2 := by
  rcases hg : c.get now (generate_cache_key chain (.single r)) with ⟨cached, status, c2⟩
  cases status with
  | HIT =>
      cases cached with
      | none => simp [process_single_request, hg]
      | some v => cases v <;> simp [process_single_request, hg]
  | MISS => simp [process_single_request, hg]
  | EXPIRED => simp [process_single_request, hg]

theorem psr_entries (chain : String) (now : Int) (c : TTLCache) (r : RpcDict) (k : String) :
    lookupAssoc k ((process_single_request chain now c r).2).cache
      = lookupAssoc k c.cache := by
  rw [psr_cache_eq]
  exact TTLCache.get_entries c now _ k

theorem psr_status {chain : String} {now : Int} {c : TTLCache} {r : RpcDict}
    {resp : Option RpcDict} {s : CacheStatus} {key : String} {toSend : Option RpcDict}
    (h : (process_single_request chain now c r).1 = .ok (resp, s, key, toSend)) :
    s = c.lookupStatus now (generate_cache_key chain (.single r)) := by
  have hst := TTLCache.get_status c now (generate_cache_key chain (.single r))
  rcases hg : c.get now (generate_cache_key chain (.single r)) with ⟨cached, status, c2⟩
  rw [hg] at hst
  cases status with
  | HIT =>
      cases cached with
      | none => simp [process_single_request, hg] at h
      | some v =>
          cases v <;> simp [process_single_request, hg] at h
          rw [← h.2.1, ← hst]
  | MISS =>
      simp [process_single_request, hg] at h
      rw [← h.2.1, ← hst]
  | EXPIRED =>
      simp [process_single_request, hg] at h
      rw [← h.2.1, ← hst]

theorem batchLoop_sameEntries (chain : String) (now : Int) :
    ∀ (items : List RpcDict) (acc : BatchAcc) (k : String),
      lookupAssoc k (loopCache (batchLoop chain now acc items)).cache
        = lookupAssoc k acc.c.cache := by
  intro items
  induction items with
  | nil => intro acc k; rfl
  | cons sub rest ih =>
      intro acc k
      have hc2 : ∀ k2, lookupAssoc k2 ((process_single_request chain now acc.c sub).2).cache
          = lookupAssoc k2 acc.c.cache := psr_entries chain now acc.c sub
      rcases hp : process_single_request chain now acc.c sub with ⟨res, c2⟩
      rw [hp] at hc2
      cases res with
      | error e => simp [batchLoop, hp, loopCache]; exact hc2 k
      | ok quad =>
          rcases quad with ⟨resp, s, key, toSend⟩
          rcases hf : forwardStep key toSend acc.batch_request acc.cache_key_map with e | pair
          · simp [batchLoop, hp, hf, loopCache]; exact hc2 k
          · rcases pair with ⟨breq, map⟩
            simp only [batchLoop, hp, hf]
            exact (ih _ k).trans (hc2 k)

theorem batchLoop_overall (chain : String) (now : Int) (c0 : TTLCache) :
    ∀ (items : List RpcDict) (acc : BatchAcc)
      (hsame : ∀ k, lookupAssoc k acc.c.cache = lookupAssoc k c0.cache)
      (acc' : BatchAcc), batchLoop chain now acc items = .ok acc' →
      acc'.overall = (items.map fun it =>
          c0.lookupStatus now (generate_cache_key chain (.single it))).foldl
            statusStep acc.overall := by
  intro items
  induction items with
  | nil =>
      intro acc hsame acc' h
      simp [batchLoop] at h
      rw [← h]
      rfl
  | cons sub rest ih =>
      intro acc hsame acc' h
      have hc2 : ∀ k2, lookupAssoc k2 ((process_single_request chain now acc.c sub).2).cache
          = lookupAssoc k2 acc.c.cache := psr_entries chain now acc.c sub
      rcases hp : process_single_request chain now acc.c sub with ⟨res, c2⟩
      rw [hp] at hc2
      cases res with
      | error e => simp [batchLoop, hp] at h
      | ok quad =>
          rcases quad with ⟨resp, s, key, toSend⟩
          have hs : s = c0.lookupStatus now (generate_cache_key chain (.single sub)) := by
            have := psr_status (c := acc.c) (r := sub) (by rw [hp])
            rw [this]
            exact lookupStatus_congr hsame now _
          rcases hf : forwardStep key toSend acc.batch_request acc.cache_key_map with e | pair
          · simp [batchLoop, hp, hf] at h
          · rcases pair with ⟨breq, map⟩
            simp only [batchLoop, hp, hf] at h
            have hrec := ih _ (fun k2 => (hc2 k2).trans (hsame k2)) acc' h
            rw [hrec, List.map_cons, List.foldl_cons, ← hs]

theorem foldl_statusStep (l : List CacheStatus) (a : CacheStatus) :
    l.foldl statusStep a = (lastNonHit l).getD a := by
  induction l generalizing a with
  | nil => rfl
  | cons s t ih =>
      rw [List.foldl_cons, ih (statusStep a s)]
      cases hlt : lastNonHit t with
      | some x => simp [lastNonHit, hlt]
      | none =>
          cases s with
          | HIT => simp [lastNonHit, hlt, statusStep]
          | MISS => simp [lastNonHit, hlt, statusStep]
          | EXPIRED => simp [lastNonHit, hlt, statusStep]

theorem lastNonHit_eq_none_iff (l : List CacheStatus) :
    lastNonHit l = none ↔ ∀ s ∈ l, s = CacheStatus.HIT := by
  induction l with
  | nil => simp [lastNonHit]
  | cons s t ih =>
      constructor
      · intro h s2 hs2
        have hlt : lastNonHit t = none := by
          unfold lastNonHit at h
          cases hl : lastNonHit t with
          | none => rfl
          | some x => rw [hl] at h; cases h
        have hsH : s = CacheStatus.HIT := by
          unfold lastNonHit at h
          rw [hlt] at h
          by_cases hx : s = CacheStatus.HIT
          · exact hx
          · simp [hx] at h
        rcases List.mem_cons.mp hs2 with h1 | h2
        · rw [h1, hsH]
        · exact ih.mp hlt s2 h2
      · intro hall
        have hlt : lastNonHit t = none :=
          ih.mpr fun s2 hs2 => hall s2 (List.mem_cons_of_mem _ hs2)
        have hsH : s = CacheStatus.HIT := hall s (List.mem_cons_self s t)
        unfold lastNonHit
        rw [hlt]
        simp [hsH]

theorem lastNonHit_some_ne {l : List CacheStatus} {s : CacheStatus}
    (h : lastNonHit l = some s) : s ≠ CacheStatus.HIT := by
  induction l with
  | nil => cases h
  | cons x t ih =>
      unfold lastNonHit at h
      cases hl : lastNonHit t with
      | some y =>
          rw [hl] at h
          cases h
          exact ih hl
      | none =>
          rw [hl] at h
          by_cases hx : x = CacheStatus.HIT
          · simp [hx] at h
          · simp [hx] at h
            rw [← h]
            exact hx

theorem lastNonHit_some_mem {l : List CacheStatus} {s : CacheStatus}
    (h : lastNonHit l = some s) : s ∈ l := by
  induction l with
  | nil => cases h
  | cons x t ih =>
      unfold lastNonHit at h
      cases hl : lastNonHit t with
      | some y =>
          rw [hl] at h
          cases h
          exact List.mem_cons_of_mem _ (ih hl)
      | none =>
          rw [hl] at h
          by_cases hx : x = CacheStatus.HIT
          · simp [hx] at h
          · simp [hx] at h
            rw [← h]
            exact List.mem_cons_self x t

theorem aggSpec_eq_HIT_iff (l : List CacheStatus) :
    aggSpec l = CacheStatus.HIT ↔ ∀ s ∈ l, s = CacheStatus.HIT := by
  unfold aggSpec
  cases hl : lastNonHit l with
  | none =>
      exact iff_of_true rfl ((lastNonHit_eq_none_iff l).mp hl)
  | some s =>
      constructor
      · intro hs
        exact absurd hs (lastNonHit_some_ne hl)
      · intro hall
        have hn : lastNonHit l = none := (lastNonHit_eq_none_iff l).mpr hall
        rw [hl] at hn
        cases hn

/-! ### Claim C5: `get` semantics -/

/-- C5: `get(key)` returns `(None, MISS)` when the key is absent;
the stored value with `EXPIRED` (cache untouched) when present and
`now > expiresAt`; and the stored value with `HIT` when present and
not expired, moving the key to the most-recently-used (back)
position. -/
theorem C5_get_semantics (c : TTLCache) (now : Int) (k : String) :
    (lookupAssoc k c.cache = none → c.get now k = (none, .MISS, c)) ∧
    (∀ v e, lookupAssoc k c.cache = some (v, e) → now > e →
        c.get now k = (some v, .EXPIRED, c)) ∧
    (∀ v e, lookupAssoc k c.cache = some (v, e) → ¬ now > e →
        c.get now k = (some v, .HIT,
          { c with cache := eraseKey k c.cache ++ [(k, v, e)] })) := by
  refine ⟨fun h => ?_, fun v e h he => ?_, fun v e h he => ?_⟩
  · unfold TTLCache.get
    rw [h]
  · unfold TTLCache.get
    rw [h]
    simp [he]
  · unfold TTLCache.get moveToEnd
    rw [h]
    simp [he]

/-- Witness for C5, exercising all three branches on concrete caches. -/
theorem C5_witness :
    ((⟨2, 30, []⟩ : TTLCache).get 0 "k" = (none, .MISS, ⟨2, 30, []⟩)) ∧
    ((⟨2, 30, [("k", .str "v", 10)]⟩ : TTLCache).get 20 "k"
        = (some (.str "v"), .EXPIRED, ⟨2, 30, [("k", .str "v", 10)]⟩)) ∧
    ((⟨2, 30, [("k", .str "v", 10)]⟩ : TTLCache).get 5 "k"
        = (some (.str "v"), .HIT, ⟨2, 30, [("k", .str "v", 10)]⟩)) := by
  refine ⟨(C5_get_semantics ⟨2, 30, []⟩ 0 "k").1 rfl,
          (C5_get_semantics ⟨2, 30, [("k", .str "v", 10)]⟩ 20 "k").2.1
            (.str "v") 10 rfl (by decide), ?_⟩
  have := (C5_get_semantics ⟨2, 30, [("k", .str "v", 10)]⟩ 5 "k").2.2
    (.str "v") 10 rfl (by decide)
  simpa using this

/-! ### Claim C6: size invariant; expiry frees no capacity -/

/-- C6: starting from an empty cache with `maxSize ≥ 1`, after any
sequence of `get`/`set` operations the number of entries is at most
`maxSize`; and a `get` (in particular one observing an expired entry)
never changes the stored bindings — expiry does not free capacity,
entries disappear only through eviction or overwrite by `set`. -/
theorem C6_size_invariant (maxsize : Nat) (ttl : Int) (ops : List CacheOp) (now : Int)
    (k k' : String) (h : 1 ≤ maxsize) :
    (TTLCache.execOps ⟨maxsize, ttl, []⟩ ops).cache.length ≤ maxsize ∧
    lookupAssoc k' (((TTLCache.execOps ⟨maxsize, ttl, []⟩ ops).get now k).2.2).cache
      = lookupAssoc k' (TTLCache.execOps ⟨maxsize, ttl, []⟩ ops).cache := by
  constructor
  · exact (TTLCache.execOps_inv ops ⟨maxsize, ttl, []⟩ h (by simp)).2
  · exact TTLCache.get_entries _ now k k'

/-- Witness for C6: three sets and a get on a `maxSize = 1` cache. -/
theorem C6_witness :
    (TTLCache.execOps ⟨1, 30, []⟩
        [.set 0 "a" .null, .set 0 "b" .null, .get 5 "b"]).cache.length ≤ 1 ∧
    lookupAssoc "a" (((TTLCache.execOps ⟨1, 30, []⟩
        [.set 0 "a" .null, .set 0 "b" .null, .get 5 "b"]).get 5 "b").2.2).cache
      = lookupAssoc "a" (TTLCache.execOps ⟨1, 30, []⟩
        [.set 0 "a" .null, .set 0 "b" .null, .get 5 "b"]).cache :=
  C6_size_invariant 1 30 [.set 0 "a" .null, .set 0 "b" .null, .get 5 "b"] 5 "b" "a"
    (by decide)

/-! ### Claim C2: `set` and eviction -/

/-- C2 counterexample: on a full cache (`maxsize = 2`, keys `"a"`
oldest and `"b"`), overwriting the already-present key `"b"` evicts the
*different* entry `"a"` — `set` pops the oldest entry whenever
`len(cache) >= maxsize`, before looking at the key. -/
theorem C2_counterexample :
    lookupAssoc "b" (⟨2, 30, [("a", .null, 100), ("b", .null, 100)]⟩ : TTLCache).cache
      = some (.null, 100) ∧
    (⟨2, 30, [("a", .null, 100), ("b", .null, 100)]⟩ : TTLCache).cache.length
      = (⟨2, 30, [("a", .null, 100), ("b", .null, 100)]⟩ : TTLCache).maxsize ∧
    lookupAssoc "a" (⟨2, 30, [("a", .null, 100), ("b", .null, 100)]⟩ : TTLCache).cache
      = some (.null, 100) ∧
    lookupAssoc "a"
      (((⟨2, 30, [("a", .null, 100), ("b", .null, 100)]⟩ : TTLCache).set 0 "b" (.str "v")).cache)
      = none := by
  decide

/-- C2 amended: `set(key, value)` evicts the oldest-inserted entry
whenever the store currently holds at least `maxSize` entries — also
when `key` is already present, so an overwrite at capacity can evict a
different entry — and then inserts the binding
`key ↦ (value, now + ttl)` at the most-recent position. -/
theorem C2_set_behavior (c : TTLCache) (now : Int) (k : String) (v : JsonVal) :
    (c.set now k v).cache =
      eraseKey k (if c.maxsize ≤ c.cache.length then c.cache.tail else c.cache)
        ++ [(k, v, now + c.ttl)] ∧
    (c.set now k v).cache.getLast? = some (k, v, now + c.ttl) := by
  refine ⟨TTLCache.set_eq c now k v, ?_⟩
  rw [TTLCache.set_eq]
  simp

/-! ### Claim C9: unknown chain -/

/-- C9: a request for a chain with no configured RPC endpoint fails
with the 404 `HTTPException` before any cache or upstream interaction:
the proxy state (including the cache registry) is untouched and no
upstream call is attempted. -/
theorem C9_unknown_chain (cfg : Config) (st : ProxyState) (now : Int) (chain : String)
    (body : RpcBody) (up : UpstreamResult)
    (h : lookupAssoc chain cfg.RPC_URL = none) :
    (handle_http_request cfg st now chain body up).outcome = .error (.httpException 404) ∧
    (handle_http_request cfg st now chain body up).state = st ∧
    (handle_http_request cfg st now chain body up).upstreamCalls = 0 := by
  unfold handle_http_request
  simp [h]

/-- Witness for C9: the chain `"xyz"` is not configured. -/
theorem C9_witness :
    (handle_http_request exConfig exState 100 "xyz" (.single exElem1) .netError).outcome
      = .error (.httpException 404) ∧
    (handle_http_request exConfig exState 100 "xyz" (.single exElem1) .netError).state
      = exState ∧
    (handle_http_request exConfig exState 100 "xyz" (.single exElem1) .netError).upstreamCalls
      = 0 :=
  C9_unknown_chain exConfig exState 100 "xyz" (.single exElem1) .netError rfl

/-! ### Claim C10: single call vs singleton batch -/

/-- C10: for every chain and single call, the derived cache key
equals the one derived for the one-element batch holding the same
call: both canonicalization paths produce
`md5(chain ++ ":" ++ cleanedDump o)`. -/
theorem C10_single_eq_singleton_batch (chain : String) (o : RpcDict) :
    generate_cache_key chain (.single o) = generate_cache_key chain (.batch [o]) := by
  unfold generate_cache_key
  rfl

/-! ### The string order used by `sorted(...)` -/

theorem charListLe_total : ∀ a b : List Char, charListLe a b = true ∨ charListLe b a = true := by
  intro a
  induction a with
  | nil => intro b; left; rfl
  | cons x as ih =>
      intro b
      cases b with
      | nil => right; rfl
      | cons y bs =>
          by_cases hxy : x.toNat < y.toNat
          · left; simp [charListLe, hxy]
          · by_cases hyx : y.toNat < x.toNat
            · right; simp [charListLe, hyx]
            · rcases ih bs with h | h
              · left; simp [charListLe, hxy, hyx, h]
              · right; simp [charListLe, hxy, hyx, h]

theorem charListLe_trans : ∀ a b c : List Char,
    charListLe a b = true → charListLe b c = true → charListLe a c = true := by
  intro a
  induction a with
  | nil => intro b c h1 h2; rfl
  | cons x as ih =>
      intro b c h1 h2
      cases b with
      | nil => simp [charListLe] at h1
      | cons y bs =>
          cases c with
          | nil => simp [charListLe] at h2
          | cons z cs =>
              simp only [charListLe] at h1 h2 ⊢
              by_cases hxy : x.toNat < y.toNat
              · by_cases hyz : y.toNat < z.toNat
                · simp [show x.toNat < z.toNat by omega]
                · by_cases hzy : z.toNat < y.toNat
                  · simp [hyz, hzy] at h2
                  · simp [show x.toNat < z.toNat by omega]
              · by_cases hyx : y.toNat < x.toNat
                · simp [hxy, hyx] at h1
                · by_cases hyz : y.toNat < z.toNat
                  · simp [show x.toNat < z.toNat by omega]
                  · by_cases hzy : z.toNat < y.toNat
                    · simp [hyz, hzy] at h2
                    · simp only [if_neg (show ¬ x.toNat < z.toNat by omega),
                        if_neg (show ¬ z.toNat < x.toNat by omega)]
                      simp only [if_neg hxy, if_neg hyx] at h1
                      simp only [if_neg hyz, if_neg hzy] at h2
                      exact ih bs cs h1 h2

theorem charListLe_antisymm : ∀ a b : List Char,
    charListLe a b = true → charListLe b a = true → a = b := by
  intro a
  induction a with
  | nil =>
      intro b h1 h2
      cases b with
      | nil => rfl
      | cons y bs => simp [charListLe] at h2
  | cons x as ih =>
      intro b h1 h2
      cases b with
      | nil => simp [charListLe] at h1
      | cons y bs =>
          simp only [charListLe] at h1 h2
          by_cases hxy : x.toNat < y.toNat
          · simp [show ¬ y.toNat < x.toNat by omega, hxy] at h2
          · by_cases hyx : y.toNat < x.toNat
            · simp [hxy, hyx] at h1
            · have hx : x.toNat = y.toNat := by omega
              have hchar : x = y := Char.eq_of_val_eq (UInt32.ext hx)
              simp only [if_neg hxy, if_neg hyx] at h1
              simp only [if_neg (show ¬ y.toNat < x.toNat by omega),
                if_neg (show ¬ x.toNat < y.toNat by omega)] at h2
              rw [hchar, ih bs h1 h2]

theorem strLe_total (a b : String) : strLe a b = true ∨ strLe b a = true :=
  charListLe_total a.data b.data

theorem strLe_trans {a b c : String} (h1 : strLe a b = true) (h2 : strLe b c = true) :
    strLe a c = true :=
  charListLe_trans a.data b.data c.data h1 h2

theorem strLe_antisymm {a b : String} (h1 : strLe a b = true) (h2 : strLe b a = true) :
    a = b := by
  cases a with
  | mk da =>
      cases b with
      | mk db => exact congrArg String.mk (charListLe_antisymm da db h1 h2)

/-! ### Claim C7: batch order-insensitivity -/

/-- C7: the cache key of a batch is invariant under permutation of
its elements: the per-element canonical strings are sorted before
being joined and hashed. -/
theorem C7_batch_order_insensitive (chain : String) (l1 l2 : List RpcDict)
    (h : l1.Perm l2) :
    generate_cache_key chain (.batch l1) = generate_cache_key chain (.batch l2) := by
  have hperm : (l1.map cleanedDump).Perm (l2.map cleanedDump) := h.map cleanedDump
  have hsort : sortStrings (l1.map cleanedDump) = sortStrings (l2.map cleanedDump) := by
    unfold sortStrings
    refine @List.eq_of_perm_of_sorted String (fun a b => strLe a b = true) ⟨fun a b h1 h2 => strLe_antisymm h1 h2⟩ _ _
      ((List.perm_insertionSort _ _).trans (hperm.trans (List.perm_insertionSort _ _).symm))
      (@List.sorted_insertionSort String (fun a b => strLe a b = true) _
        ⟨strLe_total⟩ ⟨fun a b c => strLe_trans⟩ _)
      (@List.sorted_insertionSort String (fun a b => strLe a b = true) _
        ⟨strLe_total⟩ ⟨fun a b c => strLe_trans⟩ _)
  show md5hex (chain ++ ":" ++ String.intercalate ":" (sortStrings (l1.map cleanedDump)))
      = md5hex (chain ++ ":" ++ String.intercalate ":" (sortStrings (l2.map cleanedDump)))
  rw [hsort]

/-- Witness for C7: the two-element batch `[exElem1, exElem2]` in both
orders. -/
theorem C7_witness :
    generate_cache_key "eth" (.batch [exElem1, exElem2])
      = generate_cache_key "eth" (.batch [exElem2, exElem1]) :=
  C7_batch_order_insensitive "eth" [exElem1, exElem2] [exElem2, exElem1]
    (List.Perm.swap exElem2 exElem1 [])

/-! ### Claim C8: `id`-insensitivity -/

/-- C8: the cache key ignores the top-level `id` field: two single
calls that agree after removing `id` (including one having no `id` at
all) derive the same key, and likewise element-wise for batches. -/
theorem C8_id_insensitive (chain : String) (o1 o2 : RpcDict)
    (items1 items2 : List RpcDict)
    (h : stripId o1 = stripId o2)
    (hb : List.Forall₂ (fun a b => stripId a = stripId b) items1 items2) :
    generate_cache_key chain (.single o1) = generate_cache_key chain (.single o2) ∧
    generate_cache_key chain (.batch items1) = generate_cache_key chain (.batch items2) := by
  constructor
  · have hcd : cleanedDump o1 = cleanedDump o2 := by
      unfold cleanedDump
      rw [h]
    show md5hex (chain ++ ":" ++ cleanedDump o1) = md5hex (chain ++ ":" ++ cleanedDump o2)
    rw [hcd]
  · have hmap : items1.map cleanedDump = items2.map cleanedDump := by
      induction hb with
      | nil => rfl
      | cons hab _ ih =>
          simp only [List.map_cons, ih]
          unfold cleanedDump
          rw [hab]
    show md5hex (chain ++ ":" ++ String.intercalate ":" (sortStrings (items1.map cleanedDump)))
        = md5hex (chain ++ ":" ++ String.intercalate ":" (sortStrings (items2.map cleanedDump)))
    rw [hmap]

/-- Witness for C8: a call with `id = 7` versus the same call with no
`id`, as singles and as singleton batches. -/
theorem C8_witness :
    generate_cache_key "eth" (.single [("id", .num 7), ("method", .str "m1")])
      = generate_cache_key "eth" (.single [("method", .str "m1")]) ∧
    generate_cache_key "eth" (.batch [[("id", .num 7), ("method", .str "m1")]])
      = generate_cache_key "eth" (.batch [[("method", .str "m1")]]) :=
  C8_id_insensitive "eth" [("id", .num 7), ("method", .str "m1")] [("method", .str "m1")]
    [[("id", .num 7), ("method", .str "m1")]] [[("method", .str "m1")]]
    (by decide) (List.Forall₂.cons (by decide) List.Forall₂.nil)

/-! ### `processBody` lemmas -/

theorem processBody_batch_status (chain : String) (now : Int) (c : TTLCache)
    (items : List RpcDict) (u : UpstreamResult)
    {resp : JsonVal} {sts : CacheStatus} {key : String}
    (h : (processBody chain now c (.batch items) u).1 = .ok (resp, sts, key)) :
    sts = aggSpec (items.map fun it =>
        c.lookupStatus now (generate_cache_key chain (.single it))) := by
  simp only [processBody] at h
  cases hloop : batchLoop chain now ⟨c, [], .HIT, [], []⟩ items with
  | error p =>
      rcases p with ⟨e, c2⟩
      rw [hloop] at h
      simp at h
  | ok acc =>
      rw [hloop] at h
      have hov := batchLoop_overall chain now c items ⟨c, [], .HIT, [], []⟩
        (fun k => rfl) acc hloop
      have hagg : acc.overall = aggSpec (items.map fun it =>
          c.lookupStatus now (generate_cache_key chain (.single it))) := by
        rw [hov, foldl_statusStep]
        rfl
      by_cases hbr : acc.batch_request = []
      · simp [hbr] at h
        rw [← h.2.1, hagg]
      · simp only [hbr, ne_eq, not_false_eq_true, if_true] at h
        cases u with
        | netError => simp [fetch_from_rpc] at h
        | malformed => simp [fetch_from_rpc] at h
        | jsonResponse v =>
            simp only [fetch_from_rpc] at h
            cases hit : iterateUpstream now acc.cache_key_map acc.c acc.batch_response v with
            | error p =>
                rcases p with ⟨e, c3⟩
                rw [hit] at h
                simp at h
            | ok pr =>
                rcases pr with ⟨c3, br⟩
                rw [hit] at h
                simp at h
                rw [← h.2.1, hagg]

theorem processBody_fetchFail (chain : String) (now : Int) (c : TTLCache) (body : RpcBody)
    {u : UpstreamResult} {e : ProxyError} (hf : fetch_from_rpc u = .error e)
    (hcalls : (processBody chain now c body u).2.2 = 1) :
    (processBody chain now c body u).1 = .error e ∧
    ∀ k, lookupAssoc k ((processBody chain now c body u).2.1).cache
      = lookupAssoc k c.cache := by
  cases body with
  | batch items =>
      simp only [processBody] at hcalls ⊢
      cases hloop : batchLoop chain now ⟨c, [], .HIT, [], []⟩ items with
      | error p =>
          rcases p with ⟨e2, c2⟩
          rw [hloop] at hcalls
          simp at hcalls
      | ok acc =>
          rw [hloop] at hcalls
          by_cases hbr : acc.batch_request = []
          · simp [hbr] at hcalls
          · have hsame : ∀ k, lookupAssoc k acc.c.cache = lookupAssoc k c.cache := by
              intro k
              have := batchLoop_sameEntries chain now items ⟨c, [], .HIT, [], []⟩ k
              rw [hloop] at this
              simpa [loopCache] using this
            constructor
            · simp [hbr, hf]
            · intro k
              simp only [ne_eq, hbr, not_false_eq_true, if_true, hf]
              exact hsame k
  | single r =>
      have hent : ∀ k, lookupAssoc k ((process_single_request chain now c r).2).cache
          = lookupAssoc k c.cache := psr_entries chain now c r
      simp only [processBody] at hcalls ⊢
      rcases hp : process_single_request chain now c r with ⟨res, c2⟩
      rw [hp] at hent hcalls
      cases res with
      | error e2 => simp at hcalls
      | ok quad =>
          rcases quad with ⟨sresp, s, skey, toSend⟩
          cases toSend with
          | none => simp at hcalls
          | some r2 =>
              by_cases hr2 : r2 = []
              · simp [hr2] at hcalls
              · constructor
                · simp [hr2, hf]
                · intro k
                  simp only [hr2, ite_false, if_neg, hf]
                  simpa using hent k

theorem handle_fetchFail (cfg : Config) (st : ProxyState) (now : Int) (chain : String)
    (body : RpcBody) {u : UpstreamResult} {e : ProxyError}
    (hf : fetch_from_rpc u = .error e)
    (hcalls : (handle_http_request cfg st now chain body u).upstreamCalls = 1) :
    (handle_http_request cfg st now chain body u).outcome = .error e ∧
    ∀ ch k, entryAt (handle_http_request cfg st now chain body u).state ch k
      = entryAt st ch k := by
  unfold handle_http_request at hcalls ⊢
  by_cases hrpc : (lookupAssoc chain cfg.RPC_URL).isNone
  · simp [hrpc] at hcalls
  · simp only [hrpc, Bool.false_eq_true, if_false] at hcalls ⊢
    cases httl : lookupAssoc chain cfg.CACHE_TTL with
    | none =>
        rw [httl] at hcalls
        simp at hcalls
    | some ttl =>
        rw [httl] at hcalls
        dsimp only at hcalls ⊢
        rcases hgc : st.cache.get_cache chain ttl with ⟨c0, reg1⟩
        rw [hgc] at hcalls
        dsimp only at hcalls ⊢
        have hc0st : (lookupAssoc chain st.cache.caches = some c0 ∧ reg1 = st.cache) ∨
            (lookupAssoc chain st.cache.caches = none ∧ c0 = ⟨st.cache.maxsize, ttl, []⟩ ∧
             reg1 = { st.cache with caches := setAssoc chain c0 st.cache.caches }) := by
          unfold ChainSpecificTTLCache.get_cache at hgc
          cases hreg : lookupAssoc chain st.cache.caches with
          | some cexist =>
              rw [hreg] at hgc
              left
              exact ⟨by rw [((Prod.mk.injEq _ _ _ _).mp hgc).1],
                     ((Prod.mk.injEq _ _ _ _).mp hgc).2.symm⟩
          | none =>
              rw [hreg] at hgc
              right
              refine ⟨rfl, ((Prod.mk.injEq _ _ _ _).mp hgc).1.symm, ?_⟩
              rw [← ((Prod.mk.injEq _ _ _ _).mp hgc).2, ← ((Prod.mk.injEq _ _ _ _).mp hgc).1]
        rcases hpb : processBody chain now c0 body u with ⟨out, c2, calls⟩
        rw [hpb] at hcalls
        cases out with
        | ok t =>
            exfalso
            have hpf := processBody_fetchFail chain now c0 body hf
              (by rw [hpb]; simpa using hcalls)
            rw [hpb] at hpf
            simp at hpf
        | error e2 =>
            have hpf := processBody_fetchFail chain now c0 body hf
              (by rw [hpb]; simpa using hcalls)
            rw [hpb] at hpf
            have he2 : e2 = e := by
              have h1 := hpf.1
              simp at h1
              exact h1
            have hents : ∀ k, lookupAssoc k c2.cache = lookupAssoc k c0.cache := by
              intro k
              have h2 := hpf.2 k
              simpa using h2
            subst he2
            refine ⟨rfl, fun ch k => ?_⟩
            unfold entryAt
            by_cases hch : ch = chain
            · subst hch
              dsimp only
              rw [lookupAssoc_setAssoc_self]
              rcases hc0st with ⟨hreg, hr1⟩ | ⟨hreg, hc0, hr1⟩
              · rw [hreg]
                simp [hents k]
              · rw [hreg]
                simp [hents k, hc0, lookupAssoc]
            · dsimp only
              rw [lookupAssoc_setAssoc_ne hch]
              rcases hc0st with ⟨hreg, hr1⟩ | ⟨hreg, hc0, hr1⟩
              · rw [hr1]
              · rw [hr1]
                dsimp only
                rw [lookupAssoc_setAssoc_ne hch]

/-! ### Claim C3: upstream failure -/

/-- C3 counterexample: a forwarded single call whose upstream
returns a non-JSON body.  The upstream call is attempted
(`upstreamCalls = 1`), but `json.loads` raises `JSONDecodeError`,
which `except aiohttp.ClientError` does not catch: the request fails
with an unhandled exception (a 500-equivalent), not with the
502 `HTTPException` the claim requires for malformed responses. -/
theorem C3_counterexample :
    (handle_http_request exConfig exState 100 "eth" (.single exElem1) .malformed).upstreamCalls
      = 1 ∧
    (handle_http_request exConfig exState 100 "eth" (.single exElem1) .malformed).outcome
      = .error .unhandled ∧
    (handle_http_request exConfig exState 100 "eth" (.single exElem1) .malformed).outcome
      ≠ .error (.httpException 502) := by
  refine ⟨by decide, by decide, by decide⟩

/-- C3 amended: when the request attempts its upstream call and the
upstream interaction fails, no cache entry is written anywhere — every
stored `(value, expiration)` binding is exactly as before — and the
whole request fails; a network/transport error surfaces as the 502
`HTTPException`, while a malformed (non-JSON) response body escapes as
an unhandled `json.JSONDecodeError` (a 500-equivalent), not as a 502. -/
theorem C3_upstream_failure (cfg : Config) (st : ProxyState) (now : Int) (chain : String)
    (body : RpcBody) (ch k : String) :
    ((handle_http_request cfg st now chain body .netError).upstreamCalls = 1 →
      (handle_http_request cfg st now chain body .netError).outcome
        = .error (.httpException 502) ∧
      entryAt (handle_http_request cfg st now chain body .netError).state ch k
        = entryAt st ch k) ∧
    ((handle_http_request cfg st now chain body .malformed).upstreamCalls = 1 →
      (handle_http_request cfg st now chain body .malformed).outcome = .error .unhandled ∧
      entryAt (handle_http_request cfg st now chain body .malformed).state ch k
        = entryAt st ch k) := by
  constructor
  · intro hc
    have h1 := handle_fetchFail cfg st now chain body (u := .netError) rfl hc
    exact ⟨h1.1, h1.2 ch k⟩
  · intro hc
    have h1 := handle_fetchFail cfg st now chain body (u := .malformed) rfl hc
    exact ⟨h1.1, h1.2 ch k⟩

/-- Witness for C3: a forwarded call (expired entry, so an upstream
call is attempted) whose upstream has a network error; the stored
binding for the expired key is untouched. -/
theorem C3_witness :
    (handle_http_request exConfig exState 100 "eth" (.single exElem2) .netError).outcome
      = .error (.httpException 502) ∧
    entryAt (handle_http_request exConfig exState 100 "eth"
        (.single exElem2) .netError).state "eth"
        (generate_cache_key "eth" (.single exElem2))
      = entryAt exState "eth" (generate_cache_key "eth" (.single exElem2)) :=
  (C3_upstream_failure exConfig exState 100 "eth" (.single exElem2) "eth"
      (generate_cache_key "eth" (.single exElem2))).1 (by decide)

/-! ### Claim C4: ratio reporter updates -/

/-- C4 counterexample: a request that fails with an upstream error
(surfaced to the caller as the 502 response) raises before
`cache_statuses.append(...)`: the rolling window is left unchanged and
no summary emission is triggered — contradicting the claim that every
completed request, including a forwarded failure, appends one label. -/
theorem C4_counterexample :
    (handle_http_request exConfig exState 100 "eth" (.single exElem1) .netError).outcome
      = .error (.httpException 502) ∧
    (handle_http_request exConfig exState 100 "eth" (.single exElem1) .netError).state.cache_statuses
      = exState.cache_statuses ∧
    (handle_http_request exConfig exState 100 "eth" (.single exElem1) .netError).emitted
      = false := by
  refine ⟨by decide, by decide, by decide⟩

/-- C4 amended: only a successfully completed request appends
its aggregate outcome label to the rolling window (dropping the oldest
entry when the 1000-element window is full) and triggers the periodic
summary emission exactly when at least 10 seconds have elapsed since
the last one; a request that raises — including one failing with an
upstream error — appends nothing and emits nothing. -/
theorem C4_reporter (cfg : Config) (st : ProxyState) (now : Int) (chain : String)
    (body : RpcBody) (u : UpstreamResult) (resp : JsonVal) (sts : CacheStatus)
    (key : String) (e : ProxyError) :
    ((handle_http_request cfg st now chain body u).outcome = .ok (resp, sts, key) →
      (handle_http_request cfg st now chain body u).state.cache_statuses
        = pushStatus st.cache_statuses sts ∧
      ((handle_http_request cfg st now chain body u).emitted = true
        ↔ 10 ≤ now - st.last_ratio_log)) ∧
    ((handle_http_request cfg st now chain body u).outcome = .error e →
      (handle_http_request cfg st now chain body u).state.cache_statuses
        = st.cache_statuses ∧
      (handle_http_request cfg st now chain body u).emitted = false) := by
  unfold handle_http_request
  by_cases hrpc : (lookupAssoc chain cfg.RPC_URL).isNone
  · simp [hrpc]
  · simp only [hrpc, Bool.false_eq_true, if_false]
    cases httl : lookupAssoc chain cfg.CACHE_TTL with
    | none => simp
    | some ttl =>
        dsimp only
        rcases hpb : processBody chain now ((st.cache.get_cache chain ttl).1) body u
          with ⟨out, c2, calls⟩
        cases out with
        | error e2 => simp
        | ok t =>
            rcases t with ⟨r2, s2, k2⟩
            constructor
            · intro hok
              simp only [Except.ok.injEq, Prod.mk.injEq] at hok
              rw [← hok.2.1]
              refine ⟨rfl, ?_⟩
              simp
            · intro herr
              simp at herr

/-- Witness for C4: a successful request appends its label and (100
seconds after the last log) emits; a 404-failing request appends
nothing. -/
theorem C4_witness :
    ((handle_http_request exConfig exState 100 "eth" (.single exElem2)
        (.jsonResponse (.obj [("id", .num 2), ("result", .str "f2")]))).state.cache_statuses
      = pushStatus exState.cache_statuses .EXPIRED ∧
     ((handle_http_request exConfig exState 100 "eth" (.single exElem2)
        (.jsonResponse (.obj [("id", .num 2), ("result", .str "f2")]))).emitted = true
       ↔ 10 ≤ 100 - exState.last_ratio_log)) ∧
    ((handle_http_request exConfig exState 100 "zzz" (.single exElem2) .netError).state.cache_statuses
      = exState.cache_statuses ∧
     (handle_http_request exConfig exState 100 "zzz" (.single exElem2) .netError).emitted
      = false) :=
  ⟨(C4_reporter exConfig exState 100 "eth" (.single exElem2)
      (.jsonResponse (.obj [("id", .num 2), ("result", .str "f2")]))
      (.obj [("id", .num 2), ("result", .str "f2")]) .EXPIRED
      (generate_cache_key "eth" (.single exElem2)) .unhandled).1 (by decide),
   (C4_reporter exConfig exState 100 "zzz" (.single exElem2) .netError
      .null .HIT "" (.httpException 404)).2 (by decide)⟩

/-! ### Claim C1: aggregate outcome label for batches -/

/-- C1 counterexample: a two-element batch whose first element is a
`MISS` and whose second is `EXPIRED` produces the aggregate label
`EXPIRED`, although the claim requires `MISS` whenever at least one
element missed: the loop overwrites `overall_cache_status` with each
non-`HIT` element's status, so the last non-`HIT` element wins. -/
theorem C1_counterexample :
    exCache.lookupStatus 100 (generate_cache_key "eth" (.single exElem1)) = .MISS ∧
    exCache.lookupStatus 100 (generate_cache_key "eth" (.single exElem2)) = .EXPIRED ∧
    outcomeStatus (handle_http_request exConfig exState 100 "eth"
      (.batch [exElem1, exElem2]) exUpstream) = some .EXPIRED ∧
    outcomeStatus (handle_http_request exConfig exState 100 "eth"
      (.batch [exElem1, exElem2]) exUpstream) ≠ some .MISS := by
  refine ⟨by decide, by decide, by decide, by decide⟩

/-- C1 amended: for every batch call that completes successfully,
the aggregate outcome label is `HIT` exactly when every element's
cache lookup (against the chain's cache as it stood at the start of
the request) was a `HIT`; otherwise it equals the lookup status of the
last non-`HIT` element — `MISS` if that element missed, `EXPIRED`
if it was expired — rather than preferring `MISS` over `EXPIRED`. -/
theorem C1_aggregate_amended (cfg : Config) (st : ProxyState) (now : Int) (chain : String)
    (items : List RpcDict) (u : UpstreamResult) (ttl : Int) (resp : JsonVal)
    (sts : CacheStatus) (key : String)
    (httl : lookupAssoc chain cfg.CACHE_TTL = some ttl)
    (hok : (handle_http_request cfg st now chain (.batch items) u).outcome
        = .ok (resp, sts, key)) :
    sts = aggSpec (items.map fun it =>
        ((st.cache.get_cache chain ttl).1).lookupStatus now
          (generate_cache_key chain (.single it))) ∧
    (aggSpec (items.map fun it =>
        ((st.cache.get_cache chain ttl).1).lookupStatus now
          (generate_cache_key chain (.single it))) = .HIT
      ↔ ∀ it ∈ items, ((st.cache.get_cache chain ttl).1).lookupStatus now
          (generate_cache_key chain (.single it)) = .HIT) := by
  constructor
  · unfold handle_http_request at hok
    by_cases hrpc : (lookupAssoc chain cfg.RPC_URL).isNone
    · simp [hrpc] at hok
    · simp only [hrpc, Bool.false_eq_true, if_false] at hok
      rw [httl] at hok
      dsimp only at hok
      rcases hpb : processBody chain now ((st.cache.get_cache chain ttl).1) (.batch items) u
        with ⟨out, c2, calls⟩
      rw [hpb] at hok
      cases out with
      | error e2 => simp at hok
      | ok t =>
          rcases t with ⟨r2, s2, k2⟩
          simp only [Except.ok.injEq, Prod.mk.injEq] at hok
          have hs := processBody_batch_status chain now ((st.cache.get_cache chain ttl).1)
            items u (by rw [hpb])
          rw [← hok.2.1]
          exact hs
  · rw [aggSpec_eq_HIT_iff]
    constructor
    · intro hall it hit
      exact hall _ (List.mem_map_of_mem _ hit)
    · intro hall s hs
      rcases List.mem_map.mp hs with ⟨it, hit, heq⟩
      rw [← heq]
      exact hall it hit

/-- Witness for C1: the `[MISS, EXPIRED]` batch completes with
aggregate `EXPIRED`, matching the last-non-`HIT` characterization. -/
theorem C1_witness :
    CacheStatus.EXPIRED = aggSpec ([exElem1, exElem2].map fun it =>
        ((exState.cache.get_cache "eth" 30).1).lookupStatus 100
          (generate_cache_key "eth" (.single it))) ∧
    (aggSpec ([exElem1, exElem2].map fun it =>
        ((exState.cache.get_cache "eth" 30).1).lookupStatus 100
          (generate_cache_key "eth" (.single it))) = .HIT
      ↔ ∀ it ∈ [exElem1, exElem2],
          ((exState.cache.get_cache "eth" 30).1).lookupStatus 100
            (generate_cache_key "eth" (.single it)) = .HIT) :=
  C1_aggregate_amended exConfig exState 100 "eth" [exElem1, exElem2] exUpstream 30
    (.arr [.obj [("id", .num 1), ("result", .str "f1")],
           .obj [("id", .num 2), ("result", .str "f2")]])
    .EXPIRED (generate_cache_key "eth" (.batch [exElem1, exElem2]))
    rfl (by decide)
